import Mathlib

/-!
Verification of the outline-based font mapper (`mapper.go`, package `mapper`).

The mapper compares the glyph outlines of a "special" font (typically
Private Use Area glyphs) against the CJK Unified Ideographs range of a
"standard" font.  The external truetype library is modelled as an abstract
`Font` interface providing the three queries the mapper uses:

* `Index`        — `truetype.Font.Index(rune) -> truetype.Index` (0 = no entry);
* `GlyphBounds`  — `face.GlyphBounds(rune)` on a face of size 12, returning
                   `(bounds, advance, ok)`; `none` models `ok = false`;
* `Load`         — `truetype.GlyphBuf.Load(font, fixed.I(1000), index,
                   font.HintingNone)`; `none` models an error return.

`fixed.Int26_6` is an `int32`; its arithmetic is modelled on `Int` with an
explicit wrap at 2^32 (`wrap32`).  Runes are modelled as `Int`.
-/

/-- `fixed.Int26_6` / rune arithmetic: two's-complement wrap to 32 bits. -/
def wrap32 (x : Int) : Int := (x + 2147483648) % 4294967296 - 2147483648

/-- `a - b` on `int32` (Go arithmetic wraps). -/
def int32Sub (a b : Int) : Int := wrap32 (a - b)

/-- `-a` on `int32` (Go arithmetic wraps; `-MinInt32 = MinInt32`). -/
def int32Neg (a : Int) : Int := wrap32 (-a)

/-- Largest `int32` value (largest value of Go's `rune`). -/
def int32Max : Int := 2147483647

/-- `fixed.Rectangle26_6`: min/max corners in 26.6 fixed-point units. -/
structure Rect where
  minX : Int
  minY : Int
  maxX : Int
  maxY : Int
deriving DecidableEq, Repr

/-- `fixed.Rectangle26_6.Empty`: `r.Min.X >= r.Max.X || r.Min.Y >= r.Max.Y`. -/
def Rect.Empty (r : Rect) : Bool :=
  decide (r.minX ≥ r.maxX) || decide (r.minY ≥ r.maxY)

/-- `truetype.Point`: one outline point (the unused `Flags` field is omitted). -/
structure Point where
  X : Int
  Y : Int
deriving DecidableEq, Repr

/-- `truetype.GlyphBuf` as used by the comparator: contour end indices
(`Ends []int`) and outline points (`Points []Point`). -/
structure GlyphBuf where
  Ends : List Int
  Points : List Point
deriving DecidableEq, Repr

/-- Abstract model of a parsed `*truetype.Font` together with the library
queries the mapper performs on it (see the module docstring). -/
structure Font where
  Index : Int → Nat
  GlyphBounds : Int → Option (Rect × Int)
  Load : Nat → Option GlyphBuf

/-- `GlyphOutlineMapper`: the two fonts plus the concurrency machinery.
`sync.WaitGroup` needs no state; the semaphore channel `sem` is modelled by
its capacity and whether it has been closed. -/
structure GlyphOutlineMapper where
  specialFont : Font
  standardFont : Font
  concurrent : Int
  semCap : Int
  semClosed : Bool

/-- Error returned by `NewGlyphOutlineMapper`: `fmt.Errorf` wraps the parse
error with a prefix naming the failing side. -/
inductive MapperError where
  | parseSpecialFailed (cause : String)
  | parseStandardFailed (cause : String)
deriving DecidableEq, Repr

/-- `NewGlyphOutlineMapper(specialFontData, standardFontData)`.  The external
`truetype.Parse` is passed in as a parameter `parse`. -/
def NewGlyphOutlineMapper (parse : List Nat → Except String Font)
    (specialFontData standardFontData : List Nat) :
    Except MapperError GlyphOutlineMapper :=
  match parse specialFontData with
  | Except.error e => Except.error (MapperError.parseSpecialFailed e)
  | Except.ok specialFont =>
    match parse standardFontData with
    | Except.error e => Except.error (MapperError.parseStandardFailed e)
    | Except.ok standardFont =>
      Except.ok { specialFont := specialFont, standardFont := standardFont,
                  concurrent := 10, semCap := 10, semClosed := false }

/-- `SetConcurrent`: stores the limit and replaces `sem` by a fresh open
channel of the new capacity (`make(chan struct{}, concurrent)`; Go would
panic for a negative capacity, callers pass a nonnegative one). -/
def SetConcurrent (g : GlyphOutlineMapper) (concurrent : Int) : GlyphOutlineMapper :=
  { g with concurrent := concurrent, semCap := concurrent, semClosed := false }

/-- `hasGlyph(font, char)`: multi-signal usable-glyph test.  A `nil` font
pointer is modelled by `none`. -/
def hasGlyph : Option Font → Int → Bool
  | none, _ => false
  | some font, char =>
    let index := font.Index char
    if index = 0 ∧ char ≠ 0 then false
    else
      match font.GlyphBounds char with
      | none => false
      | some (bounds, advance) =>
        if bounds.Empty ∧ advance = 0 then false
        else if 0xE000 ≤ char ∧ char ≤ 0xF8FF then
          if advance > 0 then true
          else if bounds.Empty = false then true
          else if index > 0 then true
          else false
        else if index > 0 then true
        else false

/-- The coordinate tolerance constant (`fixed.Int26_6(10)`). -/
def tolerance : Int := 10

/-- Loop 2 of `compareGlyphOutlines`: pairwise comparison of the contour end
indices (only reached once the lengths are known equal). -/
def endsMatch : List Int → List Int → Bool
  | e1 :: r1, e2 :: r2 => if e1 ≠ e2 then false else endsMatch r1 r2
  | _, _ => true

/-- Loop 4 of `compareGlyphOutlines`: per-point coordinate deltas, computed
in `int32` arithmetic, each axis compared against `tolerance` (only reached
once the point counts are known equal). -/
def pointsWithin : List Point → List Point → Bool
  | p1 :: r1, p2 :: r2 =>
    let dx := int32Sub p1.X p2.X
    let dy := int32Sub p1.Y p2.Y
    let dx2 := if dx < 0 then int32Neg dx else dx
    let dy2 := if dy < 0 then int32Neg dy else dy
    if dx2 > tolerance ∨ dy2 > tolerance then false
    else pointsWithin r1 r2
  | _, _ => true

/-- `compareGlyphOutlines(buf1, buf2)`. -/
def compareGlyphOutlines (buf1 buf2 : GlyphBuf) : Bool :=
  if buf1.Ends.length ≠ buf2.Ends.length then false
  else if endsMatch buf1.Ends buf2.Ends = false then false
  else if buf1.Points.length ≠ buf2.Points.length then false
  else pointsWithin buf1.Points buf2.Points

/-- `GlyphOutlineEqual(specialUnicode, standardUnicode)`. -/
def GlyphOutlineEqual (g : GlyphOutlineMapper) (specialUnicode standardUnicode : Int) : Bool :=
  let index1 := g.specialFont.Index specialUnicode
  let index2 := g.standardFont.Index standardUnicode
  if index1 = 0 ∨ index2 = 0 then false
  else
    match g.specialFont.Load index1 with
    | none => false
    | some buf1 =>
      match g.standardFont.Load index2 with
      | none => false
      | some buf2 => compareGlyphOutlines buf1 buf2

/-- One candidate of the `MappingRune` scan: usable standard glyph whose
outline compares equal to the special glyph. -/
def standardMatch (g : GlyphOutlineMapper) (unicode j : Int) : Bool :=
  hasGlyph (some g.standardFont) j && GlyphOutlineEqual g unicode j

/-- The scan loop `for j := 0x4e00; j <= 0x9fff; j++` of `MappingRune`,
with the remaining iteration count as explicit fuel (the loop body never
changes `j` other than `j++`). -/
def mappingScan (g : GlyphOutlineMapper) (unicode : Int) (j : Int) : Nat → Int × Int × Bool
  | 0 => (0, 0, false)
  | Nat.succ fuel =>
    if hasGlyph (some g.standardFont) j = false then mappingScan g unicode (j + 1) fuel
    else if GlyphOutlineEqual g unicode j = true then (unicode, j, true)
    else mappingScan g unicode (j + 1) fuel

/-- Number of iterations of the scan loop: `0x9fff - 0x4e00 + 1`. -/
def scanFuel : Nat := 20992

/-- `MappingRune(unicode)`: returns `(specialRune, standardRune, ok)`;
the named `rune` results stay `0` on every not-found path. -/
def MappingRune (g : GlyphOutlineMapper) (unicode : Int) : Int × Int × Bool :=
  if hasGlyph (some g.specialFont) unicode = false then (0, 0, false)
  else mappingScan g unicode 0x4E00 scanFuel

/-- The codepoints `start, start+1, ..., stop` dispatched by `Mapping`. -/
def runeRange (start stop : Int) : List Int :=
  (List.range (stop + 1 - start).toNat).map (fun n : Nat => start + (n : Int))

/-- The key/value pairs stored into the `sync.Map` accumulator when the
per-codepoint tasks complete in the order given by `tasks` (each task stores
`(specialRune, standardRune)` exactly when `MappingRune` returns `ok`). -/
def mappingStores (g : GlyphOutlineMapper) (tasks : List Int) : List (Int × Int) :=
  tasks.filterMap (fun i =>
    let r := MappingRune g i
    if r.2.2 = true then some (r.1, r.2.1) else none)

/-- Lookup in the materialized result map (`resultsMap[key]`); the stored
keys are pairwise distinct, so which duplicate wins never matters. -/
def tableLookup (k : Int) : List (Int × Int) → Option Int
  | [] => none
  | e :: rest => if e.1 = k then some e.2 else tableLookup k rest

/-- Possible outcomes of one `Mapping(start, end)` call.  `panicked` models a
Go runtime panic (send on, or close of, a closed channel), `deadlocked` a
send that can never be matched (semaphore of capacity 0), `diverged` the
non-terminating `i++` wrap-around when `end` is the largest `rune`. -/
inductive BatchResult where
  | completed (table : List (Int × Int)) (g : GlyphOutlineMapper) : BatchResult
  | panicked : BatchResult
  | deadlocked : BatchResult
  | diverged : BatchResult

/-- The mapper state after a batch call (its fallback argument is returned
for the abnormal outcomes, which never yield a successor state). -/
def BatchResult.nextState : BatchResult → GlyphOutlineMapper → GlyphOutlineMapper
  | BatchResult.completed _ g, _ => g
  | _, fallback => fallback

/-- `Mapping(start, end)`: dispatches one task per codepoint through the
semaphore, waits, then `close(g.sem)` and materializes the accumulator.
If the loop runs at least once, the first `g.sem <- struct{}{}` panics when
`sem` is already closed and blocks forever when its capacity is 0; with
`end` equal to `int32Max` the `i++` wraps and the loop never exits.  If the
loop does not run, `close(g.sem)` still panics when `sem` is already
closed.  On completion the stored pairs are those of `mappingStores` and
the mapper is left with its semaphore closed. -/
def Mapping (g : GlyphOutlineMapper) (start stop : Int) : BatchResult :=
  if start ≤ stop then
    if g.semClosed then BatchResult.panicked
    else if g.semCap ≤ 0 then BatchResult.deadlocked
    else if stop = int32Max then BatchResult.diverged
    else BatchResult.completed (mappingStores g (runeRange start stop))
      { g with semClosed := true }
  else
    if g.semClosed then BatchResult.panicked
    else BatchResult.completed [] { g with semClosed := true }

/-! ### Concrete fonts and mappers used as test inputs -/

/-- A non-empty bounding box. -/
def okRect : Rect := { minX := 0, minY := 0, maxX := 640, maxY := 640 }

/-- A small concrete outline. -/
def testBuf : GlyphBuf := { Ends := [2], Points := [{ X := 0, Y := 0 }, { X := 100, Y := 200 }] }

/-- Special test font: one glyph, at the PUA codepoint 0xE000. -/
def specialTestFont : Font :=
  { Index := fun c => if c = 0xE000 then 1 else 0,
    GlyphBounds := fun c => if c = 0xE000 then some (okRect, 60) else none,
    Load := fun i => if i = 1 then some testBuf else none }

/-- Standard test font: one glyph, at the CJK codepoint 0x4E00, with the
same outline as the special test font. -/
def standardTestFont : Font :=
  { Index := fun c => if c = 0x4E00 then 1 else 0,
    GlyphBounds := fun c => if c = 0x4E00 then some (okRect, 60) else none,
    Load := fun i => if i = 1 then some testBuf else none }

/-- Mapper over the two test fonts, in its freshly constructed state. -/
def testMapper : GlyphOutlineMapper :=
  { specialFont := specialTestFont, standardFont := standardTestFont,
    concurrent := 10, semCap := 10, semClosed := false }

/-- PUA codepoint 0xE000 with a nonzero glyph index whose bounds query
succeeds with an empty box and zero advance (a "placeholder" pattern the
spec says the PUA special case must accept via its index sub-case). -/
def puaPlaceholderFont : Font :=
  { Index := fun c => if c = 0xE000 then 7 else 0,
    GlyphBounds := fun c =>
      if c = 0xE000 then some ({ minX := 0, minY := 0, maxX := 0, maxY := 0 }, 0) else none,
    Load := fun _ => none }

/-- PUA codepoint 0xE000 with glyph index 0 but a successful bounds query
showing a non-empty box and positive advance. -/
def puaZeroIndexFont : Font :=
  { Index := fun _ => 0,
    GlyphBounds := fun c => if c = 0xE000 then some (okRect, 5) else none,
    Load := fun _ => none }

/-- One-point outline at the largest `int32` x coordinate. -/
def bufHighX : GlyphBuf := { Ends := [1], Points := [{ X := 2147483647, Y := 0 }] }

/-- One-point outline near the smallest `int32` x coordinate. -/
def bufLowX : GlyphBuf := { Ends := [1], Points := [{ X := -2147483646, Y := 0 }] }

/-! ### Claim C6: instrumented resolver

`mappingScanCount` and `MappingRuneCount` recompute `MappingRune` while also
counting, for the executed control flow of the source, how many candidates
of the scan were examined (`hasGlyph` on the standard font) and how many
times the Outline Comparator path (`GlyphOutlineEqual`) was invoked. -/

def mappingScanCount (g : GlyphOutlineMapper) (unicode : Int) (j : Int) :
    Nat → (Int × Int × Bool) × Nat × Nat
  | 0 => ((0, 0, false), 0, 0)
  | Nat.succ fuel =>
    if hasGlyph (some g.standardFont) j = false then
      let r := mappingScanCount g unicode (j + 1) fuel
      (r.1, r.2.1 + 1, r.2.2)
    else if GlyphOutlineEqual g unicode j = true then ((unicode, j, true), 1, 1)
    else
      let r := mappingScanCount g unicode (j + 1) fuel
      (r.1, r.2.1 + 1, r.2.2 + 1)

def MappingRuneCount (g : GlyphOutlineMapper) (unicode : Int) :
    (Int × Int × Bool) × Nat × Nat :=
  if hasGlyph (some g.specialFont) unicode = false then ((0, 0, false), 0, 0)
  else mappingScanCount g unicode 0x4E00 scanFuel

/-- A font whose glyph outlines never load. -/
def loadFailFont : Font :=
  { Index := fun _ => 1,
    GlyphBounds := fun _ => some (okRect, 60),
    Load := fun _ => none }

/-- Mapper whose two fonts report glyphs everywhere but never load. -/
def loadFailMapper : GlyphOutlineMapper :=
  { specialFont := loadFailFont, standardFont := loadFailFont,
    concurrent := 10, semCap := 10, semClosed := false }

/-- A concrete stand-in for `truetype.Parse`: `[1]` and `[2]` are the only
well-formed buffers. -/
def testParse : List Nat → Except String Font := fun b =>
  if b = [1] then Except.ok specialTestFont
  else if b = [2] then Except.ok standardTestFont
  else Except.error "invalid font data"

/-! ### Helper lemmas about the comparator -/

lemma endsMatch_self (l : List Int) : endsMatch l l = true := by
  induction l with
  | nil => rfl
  | cons e r ih => simp [endsMatch, ih]

lemma pointsWithin_self (l : List Point) : pointsWithin l l = true := by
  induction l with
  | nil => rfl
  | cons p r ih =>
    have hz : int32Sub p.X p.X = 0 := by
      simp [int32Sub, wrap32]
    have hzy : int32Sub p.Y p.Y = 0 := by
      simp [int32Sub, wrap32]
    simp [pointsWithin, hz, hzy, tolerance, ih]

/-- Claim C10: for every glyph outline `A`, comparing `A` against itself
with the Outline Comparator returns `true` (reflexivity). -/
theorem compareGlyphOutlines_refl (buf : GlyphBuf) :
    compareGlyphOutlines buf buf = true := by
  simp [compareGlyphOutlines, endsMatch_self, pointsWithin_self]

/-- Claim C1 (divergence witness): in `hasGlyph`, the empty-bounds and
zero-advance filter fires before the PUA special case, so a PUA codepoint
with nonzero index, empty bounds and zero advance is reported as absent. -/
theorem hasGlyph_pua_placeholder_reported_absent :
    puaPlaceholderFont.Index 0xE000 = 7 ∧
    puaPlaceholderFont.GlyphBounds 0xE000 =
      some ({ minX := 0, minY := 0, maxX := 0, maxY := 0 }, 0) ∧
    Rect.Empty { minX := 0, minY := 0, maxX := 0, maxY := 0 } = true ∧
    hasGlyph (some puaPlaceholderFont) 0xE000 = false := by
  refine ⟨rfl, rfl, rfl, ?_⟩
  decide

/-- Claim C2 (counterexample): a nonzero PUA codepoint with glyph index 0
is rejected by `hasGlyph` even though its bounds query succeeds with a
non-empty box and positive advance — index 0 is immediately terminal. -/
theorem hasGlyph_pua_zero_index_cex :
    puaZeroIndexFont.Index 0xE000 = 0 ∧
    puaZeroIndexFont.GlyphBounds 0xE000 = some (okRect, 5) ∧
    Rect.Empty okRect = false ∧ (5 : Int) > 0 ∧
    hasGlyph (some puaZeroIndexFont) 0xE000 = false := by
  refine ⟨rfl, rfl, rfl, by decide, ?_⟩
  decide

/-- Claim C2 (amended): for every font and every nonzero codepoint whose
glyph index is 0, `hasGlyph` reports the glyph as absent — a glyph index
of 0 is immediately terminal for all nonzero codepoints, private-use
included, regardless of the bounds and advance signals. -/
theorem hasGlyph_zero_index_terminal (f : Font) (c : Int)
    (hc : c ≠ 0) (hidx : f.Index c = 0) :
    hasGlyph (some f) c = false := by
  simp [hasGlyph, hidx, hc]

/-- Witness for `hasGlyph_zero_index_terminal` at a concrete input. -/
theorem hasGlyph_zero_index_terminal_witness :
    hasGlyph (some puaZeroIndexFont) 0xE000 = false :=
  hasGlyph_zero_index_terminal puaZeroIndexFont 0xE000 (by decide) rfl

/-! ### Claim C4: tolerance boundary of the comparator -/

/-- Claim C4 (counterexample): two outlines with identical contour ends and
point counts whose single point pair differs by 4294967293 (≥ 11) x units,
yet the comparator returns `true` — the `int32` subtraction wraps the
difference to `-3`. -/
theorem compareGlyphOutlines_overflow_cex :
    bufHighX.Ends = bufLowX.Ends ∧
    bufHighX.Points.length = bufLowX.Points.length ∧
    ((2147483647 : Int) - (-2147483646)).natAbs ≥ 11 ∧
    compareGlyphOutlines bufHighX bufLowX = true := by
  refine ⟨rfl, rfl, by decide, ?_⟩
  decide

lemma wrap32_eq_self (x : Int) (h : x.natAbs < 2147483648) : wrap32 x = x := by
  have h1 : (0 : Int) ≤ x + 2147483648 := by omega
  have h2 : x + 2147483648 < 4294967296 := by omega
  simp only [wrap32, Int.emod_eq_of_lt h1 h2]
  omega

lemma pointsWithin_cons (p1 p2 : Point) (r1 r2 : List Point) :
    pointsWithin (p1 :: r1) (p2 :: r2) =
      if (if int32Sub p1.X p2.X < 0 then int32Neg (int32Sub p1.X p2.X)
            else int32Sub p1.X p2.X) > tolerance
          ∨ (if int32Sub p1.Y p2.Y < 0 then int32Neg (int32Sub p1.Y p2.Y)
            else int32Sub p1.Y p2.Y) > tolerance
        then false
        else pointsWithin r1 r2 := rfl

lemma pointsWithin_iff (l1 l2 : List Point)
    (hno : ∀ p ∈ l1.zip l2,
      (p.1.X - p.2.X).natAbs < 2147483648 ∧ (p.1.Y - p.2.Y).natAbs < 2147483648) :
    (pointsWithin l1 l2 = true ↔
      ∀ p ∈ l1.zip l2, (p.1.X - p.2.X).natAbs ≤ 10 ∧ (p.1.Y - p.2.Y).natAbs ≤ 10) := by
  induction l1 generalizing l2 with
  | nil => simp [pointsWithin]
  | cons p1 r1 ih =>
    cases l2 with
    | nil => simp [pointsWithin]
    | cons p2 r2 =>
      have hX : (p1.X - p2.X).natAbs < 2147483648 := by
        simpa using (hno (p1, p2) (by simp)).1
      have hY : (p1.Y - p2.Y).natAbs < 2147483648 := by
        simpa using (hno (p1, p2) (by simp)).2
      have htail : ∀ p ∈ r1.zip r2,
          (p.1.X - p.2.X).natAbs < 2147483648 ∧ (p.1.Y - p.2.Y).natAbs < 2147483648 :=
        fun p hp => hno p (by simp [hp])
      have hdx2 : (if int32Sub p1.X p2.X < 0 then int32Neg (int32Sub p1.X p2.X)
          else int32Sub p1.X p2.X) = ((p1.X - p2.X).natAbs : Int) := by
        have hsub : int32Sub p1.X p2.X = p1.X - p2.X := wrap32_eq_self _ hX
        rw [hsub]
        by_cases hneg : p1.X - p2.X < 0
        · rw [if_pos hneg]
          have hn : int32Neg (p1.X - p2.X) = -(p1.X - p2.X) := by
            unfold int32Neg
            exact wrap32_eq_self _ (by omega)
          rw [hn]
          omega
        · rw [if_neg hneg]
          omega
      have hdy2 : (if int32Sub p1.Y p2.Y < 0 then int32Neg (int32Sub p1.Y p2.Y)
          else int32Sub p1.Y p2.Y) = ((p1.Y - p2.Y).natAbs : Int) := by
        have hsub : int32Sub p1.Y p2.Y = p1.Y - p2.Y := wrap32_eq_self _ hY
        rw [hsub]
        by_cases hneg : p1.Y - p2.Y < 0
        · rw [if_pos hneg]
          have hn : int32Neg (p1.Y - p2.Y) = -(p1.Y - p2.Y) := by
            unfold int32Neg
            exact wrap32_eq_self _ (by omega)
          rw [hn]
          omega
        · rw [if_neg hneg]
          omega
      rw [pointsWithin_cons, hdx2, hdy2]
      have hzip : (p1 :: r1).zip (p2 :: r2) = (p1, p2) :: r1.zip r2 := rfl
      rw [hzip]
      simp only [List.forall_mem_cons]
      by_cases hbig : ((p1.X - p2.X).natAbs : Int) > tolerance
          ∨ ((p1.Y - p2.Y).natAbs : Int) > tolerance
      · rw [if_pos hbig]
        simp only [tolerance] at hbig
        constructor
        · intro h
          exact (Bool.false_ne_true h).elim
        · rintro ⟨⟨hpx, hpy⟩, -⟩
          exfalso
          omega
      · rw [if_neg hbig]
        push_neg at hbig
        simp only [tolerance] at hbig
        rw [ih r2 htail]
        constructor
        · intro hall
          exact ⟨⟨by omega, by omega⟩, hall⟩
        · rintro ⟨-, hall⟩
          exact hall

/-- Claim C4 (amended): for outlines with identical contour-end sequences
and identical point counts, *provided no per-axis point difference
overflows `int32`* (absolute difference below 2^31), the comparator
returns `true` exactly when every corresponding point pair differs by at
most 10 fixed-point units on each axis; in particular deltas of exactly 10
everywhere compare equal and any single delta of 11 or more makes the
whole comparison `false`.  Without the no-overflow proviso the `int32`
difference wraps modulo 2^32 and a pair differing by 2^32 − 3 compares
equal (see the counterexample). -/
theorem compareGlyphOutlines_tolerance (buf1 buf2 : GlyphBuf)
    (hends : buf1.Ends = buf2.Ends)
    (hlen : buf1.Points.length = buf2.Points.length)
    (hno : ∀ p ∈ buf1.Points.zip buf2.Points,
      (p.1.X - p.2.X).natAbs < 2147483648 ∧ (p.1.Y - p.2.Y).natAbs < 2147483648) :
    (compareGlyphOutlines buf1 buf2 = true ↔
      ∀ p ∈ buf1.Points.zip buf2.Points,
        (p.1.X - p.2.X).natAbs ≤ 10 ∧ (p.1.Y - p.2.Y).natAbs ≤ 10) := by
  unfold compareGlyphOutlines
  rw [hends]
  simp [endsMatch_self, hlen, pointsWithin_iff _ _ hno]

/-- Witness for `compareGlyphOutlines_tolerance`: two concrete two-point
outlines whose coordinates differ by exactly 10 on each axis compare
equal. -/
theorem compareGlyphOutlines_tolerance_witness :
    compareGlyphOutlines
      { Ends := [2], Points := [{ X := 0, Y := 0 }, { X := 10, Y := 0 }] }
      { Ends := [2], Points := [{ X := 10, Y := 10 }, { X := 0, Y := 10 }] } = true :=
  (compareGlyphOutlines_tolerance
      { Ends := [2], Points := [{ X := 0, Y := 0 }, { X := 10, Y := 0 }] }
      { Ends := [2], Points := [{ X := 10, Y := 10 }, { X := 0, Y := 10 }] }
      rfl rfl (by decide)).mpr (by decide)

/-! ### The candidate scan of `MappingRune` -/

lemma mappingScan_spec (g : GlyphOutlineMapper) (u : Int) :
    ∀ (fuel : Nat) (j sp st : Int),
      mappingScan g u j fuel = (sp, st, true) →
      sp = u ∧ j ≤ st ∧ st < j + fuel ∧ standardMatch g u st = true ∧
        ∀ k, j ≤ k → k < st → standardMatch g u k = false := by
  intro fuel
  induction fuel with
  | zero =>
    intro j sp st h
    simp [mappingScan] at h
  | succ fuel ih =>
    intro j sp st h
    by_cases h1 : hasGlyph (some g.standardFont) j = false
    · rw [mappingScan, if_pos h1] at h
      obtain ⟨hsp, hj, hlt, hm, hmin⟩ := ih (j + 1) sp st h
      refine ⟨hsp, by omega, by push_cast; omega, hm, ?_⟩
      intro k hk1 hk2
      rcases eq_or_lt_of_le hk1 with heq | hlt2
      · subst heq
        simp [standardMatch, h1]
      · exact hmin k (by omega) hk2
    · rw [mappingScan, if_neg h1] at h
      have h1t : hasGlyph (some g.standardFont) j = true := by
        revert h1
        cases hasGlyph (some g.standardFont) j <;> simp
      by_cases h2 : GlyphOutlineEqual g u j = true
      · rw [if_pos h2] at h
        obtain ⟨hsp, hst2⟩ : u = sp ∧ j = st := by simpa using h
        refine ⟨hsp.symm, by omega, ?_, ?_, ?_⟩
        · subst hst2
          push_cast
          omega
        · subst hst2
          simp [standardMatch, h1t, h2]
        · intro k hk1 hk2
          exfalso
          omega
      · rw [if_neg h2] at h
        obtain ⟨hsp, hj, hlt, hm, hmin⟩ := ih (j + 1) sp st h
        have h2f : GlyphOutlineEqual g u j = false := by
          revert h2
          cases GlyphOutlineEqual g u j <;> simp
        refine ⟨hsp, by omega, by push_cast; omega, hm, ?_⟩
        intro k hk1 hk2
        rcases eq_or_lt_of_le hk1 with heq | hlt2
        · subst heq
          simp [standardMatch, h2f]
        · exact hmin k (by omega) hk2

lemma mappingRune_ok_spec (g : GlyphOutlineMapper) (u sp st : Int)
    (h : MappingRune g u = (sp, st, true)) :
    sp = u ∧ 0x4E00 ≤ st ∧ st ≤ 0x9FFF ∧ standardMatch g u st = true ∧
      ∀ k, 0x4E00 ≤ k → k < st → standardMatch g u k = false := by
  unfold MappingRune at h
  by_cases hsg : hasGlyph (some g.specialFont) u = false
  · rw [if_pos hsg] at h
    simp at h
  · rw [if_neg hsg] at h
    obtain ⟨hsp, hj, hlt, hm, hmin⟩ := mappingScan_spec g u scanFuel 0x4E00 sp st h
    refine ⟨hsp, hj, ?_, hm, hmin⟩
    have : (scanFuel : Int) = 20992 := by norm_num [scanFuel]
    omega

lemma mappingRune_fst (g : GlyphOutlineMapper) (u : Int)
    (h : (MappingRune g u).2.2 = true) : (MappingRune g u).1 = u := by
  have heq : MappingRune g u =
      ((MappingRune g u).1, (MappingRune g u).2.1, (MappingRune g u).2.2) := rfl
  rw [h] at heq
  exact (mappingRune_ok_spec g u _ _ heq).1

lemma mem_mappingStores (g : GlyphOutlineMapper) (l : List Int) (p : Int × Int)
    (hp : p ∈ mappingStores g l) :
    ∃ i ∈ l, MappingRune g i = (p.1, p.2, true) := by
  unfold mappingStores at hp
  obtain ⟨i, hi, hf⟩ := List.mem_filterMap.mp hp
  by_cases hok : (MappingRune g i).2.2 = true
  · rw [if_pos hok] at hf
    have hpair := Option.some.inj hf
    have h1 : (MappingRune g i).1 = p.1 := congrArg Prod.fst hpair
    have h2 : (MappingRune g i).2.1 = p.2 := congrArg Prod.snd hpair
    refine ⟨i, hi, ?_⟩
    calc MappingRune g i
        = ((MappingRune g i).1, (MappingRune g i).2.1, (MappingRune g i).2.2) := rfl
      _ = (p.1, p.2, true) := by rw [h1, h2, hok]
  · rw [if_neg hok] at hf
    exact absurd hf (by simp)

/-- Claim C5: whenever `MappingRune` resolves a special codepoint, it
returns the codepoint itself paired with the *smallest* candidate in
[0x4E00, 0x9FFF] that has a usable standard-font glyph and an equal
outline; consequently every value stored in a returned mapping table lies
in [0x4E00, 0x9FFF]. -/
theorem mappingRune_first_match :
    (∀ g u sp st, MappingRune g u = (sp, st, true) →
      sp = u ∧ 0x4E00 ≤ st ∧ st ≤ 0x9FFF ∧ standardMatch g u st = true ∧
        ∀ k, 0x4E00 ≤ k → k < st → standardMatch g u k = false) ∧
    (∀ g tasks p, p ∈ mappingStores g tasks → 0x4E00 ≤ p.2 ∧ p.2 ≤ 0x9FFF) := by
  constructor
  · exact fun g u sp st h => mappingRune_ok_spec g u sp st h
  · intro g tasks p hp
    obtain ⟨i, -, hi⟩ := mem_mappingStores g tasks p hp
    obtain ⟨-, h1, h2, -, -⟩ := mappingRune_ok_spec g i p.1 p.2 hi
    exact ⟨h1, h2⟩

/-- Witness for `mappingRune_first_match` on the concrete test fonts. -/
theorem mappingRune_first_match_witness :
    MappingRune testMapper 0xE000 = (0xE000, 0x4E00, true) ∧
    standardMatch testMapper 0xE000 0x4E00 = true ∧
    (0x4E00 : Int) ≤ 0x4E00 ∧ (0x4E00 : Int) ≤ 0x9FFF ∧
    (0xE000, 0x4E00) ∈ mappingStores testMapper [0xE000] ∧
    0x4E00 ≤ ((0xE000, 0x4E00) : Int × Int).2 ∧ ((0xE000, 0x4E00) : Int × Int).2 ≤ 0x9FFF := by
  have h : MappingRune testMapper 0xE000 = (0xE000, 0x4E00, true) := by decide
  have hs := mappingRune_first_match.1 testMapper 0xE000 0xE000 0x4E00 h
  have hmem : (0xE000, 0x4E00) ∈ mappingStores testMapper [0xE000] := by decide
  have ht := mappingRune_first_match.2 testMapper [0xE000] (0xE000, 0x4E00) hmem
  exact ⟨h, hs.2.2.2.1, hs.2.1, hs.2.2.1, hmem, ht.1, ht.2⟩

lemma mappingScanCount_fst (g : GlyphOutlineMapper) (u : Int) :
    ∀ (fuel : Nat) (j : Int), (mappingScanCount g u j fuel).1 = mappingScan g u j fuel := by
  intro fuel
  induction fuel with
  | zero => intro j; rfl
  | succ fuel ih =>
    intro j
    rw [mappingScanCount, mappingScan]
    by_cases h1 : hasGlyph (some g.standardFont) j = false
    · rw [if_pos h1, if_pos h1]
      exact ih (j + 1)
    · rw [if_neg h1, if_neg h1]
      by_cases h2 : GlyphOutlineEqual g u j = true
      · rw [if_pos h2, if_pos h2]
      · rw [if_neg h2, if_neg h2]
        exact ih (j + 1)

/-- Claim C6: when the special font has no usable glyph for a codepoint,
`MappingRune` returns not-found immediately — zero candidates examined and
zero Comparator invocations — and the instrumented resolver always agrees
with `MappingRune` on the returned triple. -/
theorem mappingRune_no_glyph_immediate :
    (∀ g u, hasGlyph (some g.specialFont) u = false →
      MappingRune g u = (0, 0, false) ∧ MappingRuneCount g u = ((0, 0, false), 0, 0)) ∧
    (∀ g u, (MappingRuneCount g u).1 = MappingRune g u) := by
  constructor
  · intro g u h
    constructor
    · unfold MappingRune
      rw [if_pos h]
    · unfold MappingRuneCount
      rw [if_pos h]
  · intro g u
    unfold MappingRuneCount MappingRune
    by_cases h : hasGlyph (some g.specialFont) u = false
    · rw [if_pos h, if_pos h]
    · rw [if_neg h, if_neg h]
      exact mappingScanCount_fst g u scanFuel 0x4E00

/-- Witness for `mappingRune_no_glyph_immediate`: the special test font has
no glyph at 0xE001. -/
theorem mappingRune_no_glyph_immediate_witness :
    MappingRune testMapper 0xE001 = (0, 0, false) ∧
    MappingRuneCount testMapper 0xE001 = ((0, 0, false), 0, 0) := by
  have h : hasGlyph (some testMapper.specialFont) 0xE001 = false := by decide
  exact mappingRune_no_glyph_immediate.1 testMapper 0xE001 h

/-! ### Claim C7: outline-load failures are local -/

/-- Claim C7: an outline-load failure on either side makes
`GlyphOutlineEqual` answer `false` (never an error — the function is
total), and any candidate on which `GlyphOutlineEqual` answers `false`
merely advances the scan to the next candidate. -/
theorem outline_load_failure_skips :
    (∀ g c j, (g.specialFont.Load (g.specialFont.Index c) = none ∨
        g.standardFont.Load (g.standardFont.Index j) = none) →
      GlyphOutlineEqual g c j = false) ∧
    (∀ g c j fuel, GlyphOutlineEqual g c j = false →
      mappingScan g c j (fuel + 1) = mappingScan g c (j + 1) fuel) := by
  constructor
  · intro g c j hload
    unfold GlyphOutlineEqual
    by_cases hidx : g.specialFont.Index c = 0 ∨ g.standardFont.Index j = 0
    · rw [if_pos hidx]
    · rw [if_neg hidx]
      rcases hload with h1 | h2
      · rw [h1]
      · cases hsp : g.specialFont.Load (g.specialFont.Index c) with
        | none => rfl
        | some buf1 => rw [h2]
  · intro g c j fuel hfail
    rw [mappingScan]
    by_cases h1 : hasGlyph (some g.standardFont) j = false
    · rw [if_pos h1]
    · rw [if_neg h1, if_neg (by rw [hfail]; exact Bool.false_ne_true)]

/-- Witness for `outline_load_failure_skips` at a concrete failing load. -/
theorem outline_load_failure_skips_witness :
    GlyphOutlineEqual loadFailMapper 0xE000 0x4E00 = false ∧
    mappingScan loadFailMapper 0xE000 0x4E00 1 = mappingScan loadFailMapper 0xE000 0x4E01 0 := by
  have h : GlyphOutlineEqual loadFailMapper 0xE000 0x4E00 = false :=
    outline_load_failure_skips.1 loadFailMapper 0xE000 0x4E00 (Or.inl rfl)
  exact ⟨h, outline_load_failure_skips.2 loadFailMapper 0xE000 0x4E00 0 h⟩

/-! ### Claim C8: construction distinguishes the failing side -/

/-- Claim C8: `NewGlyphOutlineMapper` returns a usable mapper (default
concurrency 10, fresh open semaphore) exactly when both buffers parse, a
`parseSpecialFailed` error when the special buffer fails to parse, and a
`parseStandardFailed` error when the special buffer parses but the
standard one does not. -/
theorem newMapper_error_sides (parse : List Nat → Except String Font)
    (sp st : List Nat) :
    (∀ f1 f2, parse sp = Except.ok f1 → parse st = Except.ok f2 →
      NewGlyphOutlineMapper parse sp st =
        Except.ok { specialFont := f1, standardFont := f2,
                    concurrent := 10, semCap := 10, semClosed := false }) ∧
    (∀ e, parse sp = Except.error e →
      NewGlyphOutlineMapper parse sp st =
        Except.error (MapperError.parseSpecialFailed e)) ∧
    (∀ f1 e, parse sp = Except.ok f1 → parse st = Except.error e →
      NewGlyphOutlineMapper parse sp st =
        Except.error (MapperError.parseStandardFailed e)) := by
  refine ⟨?_, ?_, ?_⟩
  · intro f1 f2 h1 h2
    unfold NewGlyphOutlineMapper
    rw [h1, h2]
  · intro e h1
    unfold NewGlyphOutlineMapper
    rw [h1]
  · intro f1 e h1 h2
    unfold NewGlyphOutlineMapper
    rw [h1, h2]

/-- Witness for `newMapper_error_sides` on concrete byte buffers. -/
theorem newMapper_error_sides_witness :
    NewGlyphOutlineMapper testParse [1] [2] =
      Except.ok { specialFont := specialTestFont, standardFont := standardTestFont,
                  concurrent := 10, semCap := 10, semClosed := false } ∧
    NewGlyphOutlineMapper testParse [0] [2] =
      Except.error (MapperError.parseSpecialFailed "invalid font data") ∧
    NewGlyphOutlineMapper testParse [1] [0] =
      Except.error (MapperError.parseStandardFailed "invalid font data") :=
  ⟨(newMapper_error_sides testParse [1] [2]).1 specialTestFont standardTestFont rfl rfl,
   (newMapper_error_sides testParse [0] [2]).2.1 "invalid font data" rfl,
   (newMapper_error_sides testParse [1] [0]).2.2 specialTestFont "invalid font data" rfl rfl⟩

/-! ### Claim C9: the table content is schedule-independent -/

lemma mappingStores_key_mem (g : GlyphOutlineMapper) :
    ∀ (l : List Int) (p : Int × Int), p ∈ mappingStores g l → p.1 ∈ l := by
  intro l p hp
  obtain ⟨i, hi, hrun⟩ := mem_mappingStores g l p hp
  have hok : (MappingRune g i).2.2 = true := by rw [hrun]
  have hfst : (MappingRune g i).1 = i := mappingRune_fst g i hok
  rw [hrun] at hfst
  rw [← hfst] at hi
  exact hi

lemma mappingStores_keys_nodup (g : GlyphOutlineMapper) :
    ∀ l : List Int, l.Nodup → ((mappingStores g l).map Prod.fst).Nodup := by
  intro l
  induction l with
  | nil =>
    intro
    simp [mappingStores]
  | cons a l ih =>
    intro hnd
    obtain ⟨ha, hl⟩ := List.nodup_cons.mp hnd
    unfold mappingStores
    rw [List.filterMap_cons]
    by_cases hok : (MappingRune g a).2.2 = true
    · rw [if_pos hok]
      rw [List.map_cons, List.nodup_cons]
      refine ⟨?_, ih hl⟩
      intro hmem
      obtain ⟨p, hp, hkey⟩ := List.mem_map.mp hmem
      have : p.1 ∈ l := mappingStores_key_mem g l p hp
      rw [hkey] at this
      rw [mappingRune_fst g a hok] at this
      exact ha this
    · rw [if_neg hok]
      exact ih hl

lemma tableLookup_cons (k : Int) (e : Int × Int) (rest : List (Int × Int)) :
    tableLookup k (e :: rest) = if e.1 = k then some e.2 else tableLookup k rest := rfl

lemma tableLookup_perm :
    ∀ l1 l2 : List (Int × Int), l1.Perm l2 → (l1.map Prod.fst).Nodup →
      ∀ k, tableLookup k l1 = tableLookup k l2 := by
  intro l1 l2 hperm
  induction hperm with
  | nil =>
    intro _ k
    rfl
  | cons x p ih =>
    intro hnd k
    rw [List.map_cons, List.nodup_cons] at hnd
    simp only [tableLookup_cons]
    by_cases hx : x.1 = k
    · rw [if_pos hx, if_pos hx]
    · rw [if_neg hx, if_neg hx]
      exact ih hnd.2 k
  | swap x y l =>
    intro hnd k
    rw [List.map_cons, List.map_cons, List.nodup_cons] at hnd
    have hxy : y.1 ≠ x.1 := fun h => hnd.1 (by rw [h]; exact List.mem_cons_self _ _)
    simp only [tableLookup_cons]
    by_cases hy : y.1 = k
    · subst hy
      simp [Ne.symm hxy]
    · by_cases hx : x.1 = k
      · subst hx
        simp [hy]
      · simp [hx, hy]
  | trans p1 p2 ih1 ih2 =>
    intro hnd k
    rw [ih1 hnd k]
    exact ih2 ((p1.map Prod.fst).nodup hnd) k

lemma runeRange_nodup (s e : Int) : (runeRange s e).Nodup := by
  have hinj : Function.Injective (fun n : Nat => s + (n : Int)) := by
    intro a b hab
    simp only at hab
    omega
  unfold runeRange
  exact List.Nodup.map hinj (List.nodup_range _)

/-- Claim C9: for one mapper (one pair of font buffers) and fixed inclusive
bounds, the key-to-value content of the accumulated table is the same for
every completion order of the per-codepoint tasks — each key's presence
and value depend only on the font data, not on scheduling. -/
theorem mapping_table_deterministic (g : GlyphOutlineMapper) (s e : Int)
    (sched1 sched2 : List Int)
    (h1 : sched1.Perm (runeRange s e)) (h2 : sched2.Perm (runeRange s e)) :
    ∀ k, tableLookup k (mappingStores g sched1) = tableLookup k (mappingStores g sched2) := by
  intro k
  have h12 : sched1.Perm sched2 := h1.trans h2.symm
  have hnd1 : sched1.Nodup := h1.symm.nodup (runeRange_nodup s e)
  exact tableLookup_perm _ _ (h12.filterMap _) (mappingStores_keys_nodup g sched1 hnd1) k

/-- Witness for `mapping_table_deterministic`: the reversed schedule of the
two-codepoint range [0xE000, 0xE001] yields the same lookups. -/
theorem mapping_table_deterministic_witness :
    tableLookup 0xE000 (mappingStores testMapper [0xE001, 0xE000]) =
      tableLookup 0xE000 (mappingStores testMapper (runeRange 0xE000 0xE001)) := by
  have hr : runeRange 0xE000 0xE001 = [0xE000, 0xE001] := by decide
  have hperm : List.Perm [0xE001, 0xE000] (runeRange 0xE000 0xE001) := by
    rw [hr]
    exact List.Perm.swap 0xE000 0xE001 []
  exact mapping_table_deterministic testMapper 0xE000 0xE001 [0xE001, 0xE000]
    (runeRange 0xE000 0xE001) hperm (List.Perm.refl _) 0xE000

/-! ### Claim C3: a second batch call on the same mapper panics -/

/-- Claim C3 (divergence witness): the first `Mapping` call on the test
mapper completes and returns the one-entry table, leaving the semaphore
channel closed; the second `Mapping` call on the resulting state panics
(send on a closed channel) instead of returning a table, and only an
intervening `SetConcurrent` (which installs a fresh channel) lets a
subsequent batch complete. -/
theorem mapping_second_call_panicked :
    Mapping testMapper 0xE000 0xE000 =
      BatchResult.completed [(0xE000, 0x4E00)] { testMapper with semClosed := true } ∧
    Mapping ((Mapping testMapper 0xE000 0xE000).nextState testMapper) 0xE000 0xE000 =
      BatchResult.panicked ∧
    Mapping (SetConcurrent ((Mapping testMapper 0xE000 0xE000).nextState testMapper) 50)
        0xE000 0xE000 =
      BatchResult.completed [(0xE000, 0x4E00)]
        { testMapper with concurrent := 50, semCap := 50, semClosed := true } := by
  refine ⟨?_, rfl, ?_⟩ <;> rfl
